import Mathlib

/-
  Verification development for the carb-estimator client.

  The embedding follows src/app/page.tsx:
  - generateEstimatedCarbData (lines 203-260): the heuristic regex fallback;
  - analyzeImage (lines 330-368): the response normalizer (direct JSON parse,
    then embedded-object parse over the greedy first-brace..last-brace span,
    then the heuristic fallback);
  - compressImage (lines 139-156): the dimension computation;
  - the credential-guarded UI actions (handleGalleryClick, capturePhoto,
    retryAnalysis) as a small event-step machine.

  JavaScript numbers are modelled by the rationals; the integers produced by
  parseInt on a digit run are modelled by Nat. Strings are processed as
  List Char. The regular expressions of the fallback are embedded as
  committed matchers: for these particular patterns greedy matching of the
  optional groups (rams)? and (of)? never needs backtracking, because no
  keyword of the pattern begins with the letters r or o, so a committed
  matcher has exactly the JavaScript leftmost-match semantics.
-/

/-- Character class of the JavaScript regex token backslash-d (ASCII digits). -/
def isDigitCh (c : Char) : Bool :=
  48 ≤ c.toNat && c.toNat ≤ 57

/-- Character class of the JavaScript regex token backslash-w:
ASCII letters, digits and underscore. -/
def isWordCh (c : Char) : Bool :=
  (48 ≤ c.toNat && c.toNat ≤ 57) || (65 ≤ c.toNat && c.toNat ≤ 90) ||
  (97 ≤ c.toNat && c.toNat ≤ 122) || c.toNat == 95

/-- Character class of the JavaScript regex token backslash-s, restricted to
its ASCII part: space, tab, line feed, vertical tab, form feed, carriage
return. -/
def isJsWs (c : Char) : Bool :=
  c.toNat == 32 || (9 ≤ c.toNat && c.toNat ≤ 13)

/-- Characters allowed inside the lazy name group of the food-item regex:
word characters or whitespace. -/
def isNameCh (c : Char) : Bool :=
  isWordCh c || isJsWs c

/-- ASCII lower-casing, used for the case-insensitive regex flag. -/
def lowerCh (c : Char) : Char :=
  if 65 ≤ c.toNat && c.toNat ≤ 90 then Char.ofNat (c.toNat + 32) else c

/-- Value of a digit run, as computed by Number.parseInt on a decimal
digit string. -/
def digitsToNat (ds : List Char) : Nat :=
  ds.foldl (fun a c => a * 10 + (c.toNat - 48)) 0

/-- Strip a literal (case-insensitively); none when the input does not start
with the literal. -/
def stripCi : List Char → List Char → Option (List Char)
  | [], cs => some cs
  | _ :: _, [] => none
  | l :: ls, c :: cs => if lowerCh c = lowerCh l then stripCi ls cs else none

/-- Strip a literal case-insensitively if present, otherwise keep the input:
the committed form of an optional regex group. -/
def tryStripCi (lit cs : List Char) : List Char :=
  (stripCi lit cs).getD cs

/-- The trim method of JavaScript strings: whitespace removed from both
ends. -/
def jsTrim (cs : List Char) : List Char :=
  ((cs.dropWhile isJsWs).reverse.dropWhile isJsWs).reverse

/-- Food item of the nutrition record (type FoodItem of page.tsx). -/
structure FoodItem where
  name : String
  weight : Nat
  carbs : Nat
  confidence : Option String
deriving DecidableEq

/-- Breakdown part of the nutrition record. -/
structure CarbBreakdown where
  fiber : Nat
  sugar : Nat
  starch : Nat
deriving DecidableEq

/-- Nutrition record (type CarbData of page.tsx) as produced by the
heuristic fallback, whose numbers are parseInt results (naturals). -/
structure CarbData where
  totalCarbs : Nat
  breakdown : CarbBreakdown
  foodItems : List FoodItem
deriving DecidableEq

/-- Match the pattern (digits) ws* g (rams)? ws* (of)? ws* keyword at the
head of the input (case-insensitive), returning the captured number. This
embeds the anchored attempt of the regexes at page.tsx lines 223-226. -/
def matchGramsAt (kw cs : List Char) : Option Nat :=
  let ds := cs.takeWhile isDigitCh
  let r1 := cs.dropWhile isDigitCh
  if ds.isEmpty then none else
  let r2 := r1.dropWhile isJsWs
  match stripCi ['g'] r2 with
  | none => none
  | some r3 =>
    let r4 := tryStripCi ("rams".data) r3
    let r5 := r4.dropWhile isJsWs
    let r6 := tryStripCi ("of".data) r5
    let r7 := r6.dropWhile isJsWs
    match stripCi kw r7 with
    | none => none
    | some _ => some (digitsToNat ds)

/-- Leftmost match of the grams pattern over the whole input, as the
JavaScript String.match method computes it for a non-global regex. -/
def scanGrams (kw : List Char) : List Char → Option Nat
  | [] => none
  | c :: rest =>
    match matchGramsAt kw (c :: rest) with
    | some n => some n
    | none => scanGrams kw rest

/-- First match of the total-carb regex of page.tsx line 223. The
alternation (carb|carbohydrate) reduces to the literal carb because the
first alternative is a prefix of the second and nothing follows it in the
pattern. -/
def carbMatch (text : String) : Option Nat :=
  scanGrams ("carb".data) text.data

/-- First match of the fiber regex of page.tsx line 224. -/
def fiberMatch (text : String) : Option Nat :=
  scanGrams ("fiber".data) text.data

/-- First match of the sugar regex of page.tsx line 225. -/
def sugarMatch (text : String) : Option Nat :=
  scanGrams ("sugar".data) text.data

/-- First match of the starch regex of page.tsx line 226. -/
def starchMatch (text : String) : Option Nat :=
  scanGrams ("starch".data) text.data

/-- Numeric tail of the food-item regex after the colon:
ws* (digits) ws* g (rams)? comma ws* (digits) ws* g (rams)? ws* (of)? ws*
(carbs|carbohydrates), returning weight, carbs and the unconsumed rest. -/
def matchItemTail (cs : List Char) : Option (Nat × Nat × List Char) :=
  let r1 := cs.dropWhile isJsWs
  let ds1 := r1.takeWhile isDigitCh
  let r2 := r1.dropWhile isDigitCh
  if ds1.isEmpty then none else
  let r3 := r2.dropWhile isJsWs
  match stripCi ['g'] r3 with
  | none => none
  | some r4 =>
    match tryStripCi ("rams".data) r4 with
    | ',' :: r6 =>
      let r7 := r6.dropWhile isJsWs
      let ds2 := r7.takeWhile isDigitCh
      let r8 := r7.dropWhile isDigitCh
      if ds2.isEmpty then none else
      let r9 := r8.dropWhile isJsWs
      match stripCi ['g'] r9 with
      | none => none
      | some r10 =>
        let r11 := tryStripCi ("rams".data) r10
        let r12 := r11.dropWhile isJsWs
        let r13 := tryStripCi ("of".data) r12
        let r14 := r13.dropWhile isJsWs
        match stripCi ("carbs".data) r14 with
        | some r15 => some (digitsToNat ds1, digitsToNat ds2, r15)
        | none =>
          match stripCi ("carbohydrates".data) r14 with
          | some r15 => some (digitsToNat ds1, digitsToNat ds2, r15)
          | none => none
    | _ => none

/-- Anchored attempt of the food-item regex of page.tsx line 242. The name
group, word-character first then a lazy run of word characters and
whitespace, reaches exactly the first character outside that class, which
the pattern then requires to be a colon. -/
def matchItemAt (cs : List Char) : Option (FoodItem × List Char) :=
  match cs with
  | [] => none
  | c :: _ =>
    if isWordCh c then
      match cs.dropWhile isNameCh with
      | ':' :: r2 =>
        match matchItemTail r2 with
        | some (w, cb, rest) =>
          some ({ name := String.mk (jsTrim (cs.takeWhile isNameCh)),
                  weight := w, carbs := cb, confidence := some ("low") }, rest)
        | none => none
      | _ => none
    else none

/-- Repeated exec of the global food-item regex: leftmost matches in order,
scanning resuming after each match. Fuel is the input length; every match
consumes at least one character. -/
def scanItemsF : Nat → List Char → List FoodItem
  | 0, _ => []
  | _, [] => []
  | fuel + 1, c :: rest =>
    match matchItemAt (c :: rest) with
    | some (it, r) => it :: scanItemsF fuel r
    | none => scanItemsF fuel rest

/-- All food-item matches of the text, in order of occurrence. -/
def itemMatches (text : String) : List FoodItem :=
  scanItemsF text.data.length text.data

/-- The heuristic fallback generateEstimatedCarbData of page.tsx lines
203-260: defaults 30 and 5/10/15 and a single unknown item, overridden by
whatever the four grams regexes and the food-item regex recover; the total
becomes the sum of the breakdown when no total matched but some component
did. -/
def generateEstimatedCarbData (text : String) : CarbData :=
  let carbM := carbMatch text
  let fiberM := fiberMatch text
  let sugarM := sugarMatch text
  let starchM := starchMatch text
  let fiber := fiberM.getD 5
  let sugar := sugarM.getD 10
  let starch := starchM.getD 15
  let totalCarbs :=
    if carbM.isNone && (fiberM.isSome || sugarM.isSome || starchM.isSome) then
      fiber + sugar + starch
    else
      carbM.getD 30
  let items := itemMatches text
  let foodItems :=
    if items.isEmpty then
      [{ name := "Unknown food item", weight := 100, carbs := 30,
         confidence := some ("low") }]
    else items
  { totalCarbs := totalCarbs,
    breakdown := { fiber := fiber, sugar := sugar, starch := starch },
    foodItems := foodItems }

/-- Opening curly brace character. -/
def lcurly : Char := Char.ofNat 123

/-- Closing curly brace character. -/
def rcurly : Char := Char.ofNat 125

/-- A JSON numeric literal as parsed: sign, the digits of the integer and
fraction parts as one natural, the length of the fraction part, and the
decimal exponent. Its mathematical value is given by JNum.val; keeping the
literal exact avoids committing to floating-point rounding. -/
structure JNum where
  neg : Bool
  mant : Nat
  fracLen : Nat
  exp10 : Int
deriving DecidableEq

/-- Exact value of a numeric literal in the rationals. -/
def JNum.val (n : JNum) : ℚ :=
  (if n.neg then -(n.mant : ℚ) else (n.mant : ℚ)) * (10 : ℚ) ^ (n.exp10 - n.fracLen)

/-- The literal denotes a non-negative number. -/
def JNum.isNonneg (n : JNum) : Bool :=
  !n.neg || n.mant == 0

/-- The literal denotes a strictly positive number. -/
def JNum.isPos (n : JNum) : Bool :=
  !n.neg && !(n.mant == 0)

/-- The literal denotes zero. -/
def JNum.isZero (n : JNum) : Bool :=
  n.mant == 0

/-- JSON values as JSON.parse produces them: numbers kept as the exact
parsed literal, objects as their field list in insertion order (duplicate
keys collapsed as in JavaScript: first position, last value). -/
inductive Json where
  | null
  | bool (b : Bool)
  | num (n : JNum)
  | str (s : String)
  | arr (elems : List Json)
  | obj (fields : List (String × Json))

/-- The whitespace JSON.parse skips between tokens: space, tab, line feed,
carriage return. -/
def skipJWs (cs : List Char) : List Char :=
  cs.dropWhile (fun c => c == ' ' || c == '\t' || c == '\n' || c == '\r')

/-- Value of one hexadecimal digit, for unicode escapes. -/
def hexVal (c : Char) : Option Nat :=
  if 48 ≤ c.toNat && c.toNat ≤ 57 then some (c.toNat - 48)
  else if 65 ≤ c.toNat && c.toNat ≤ 70 then some (c.toNat - 55)
  else if 97 ≤ c.toNat && c.toNat ≤ 102 then some (c.toNat - 87)
  else none

/-- Body of a JSON string after the opening quote: the standard escapes,
raw control characters rejected, terminated by an unescaped quote. -/
def parseJStringAux : List Char → List Char → Option (String × List Char)
  | acc, '"' :: r => some (String.mk acc.reverse, r)
  | acc, '\\' :: '"' :: r => parseJStringAux ('"' :: acc) r
  | acc, '\\' :: '\\' :: r => parseJStringAux ('\\' :: acc) r
  | acc, '\\' :: '/' :: r => parseJStringAux ('/' :: acc) r
  | acc, '\\' :: 'b' :: r => parseJStringAux (Char.ofNat 8 :: acc) r
  | acc, '\\' :: 'f' :: r => parseJStringAux (Char.ofNat 12 :: acc) r
  | acc, '\\' :: 'n' :: r => parseJStringAux ('\n' :: acc) r
  | acc, '\\' :: 'r' :: r => parseJStringAux ('\r' :: acc) r
  | acc, '\\' :: 't' :: r => parseJStringAux ('\t' :: acc) r
  | acc, '\\' :: 'u' :: h1 :: h2 :: h3 :: h4 :: r2 =>
    match hexVal h1, hexVal h2, hexVal h3, hexVal h4 with
    | some a, some b, some c, some d =>
      parseJStringAux (Char.ofNat (((a * 16 + b) * 16 + c) * 16 + d) :: acc) r2
    | _, _, _, _ => none
  | _, '\\' :: _ => none
  | acc, c :: r => if c.toNat < 32 then none else parseJStringAux (c :: acc) r
  | _, [] => none

/-- Fraction part of a JSON number: a dot must be followed by at least one
digit; absent otherwise. -/
def parseFrac : List Char → Option (List Char × List Char)
  | '.' :: r =>
    let ds := r.takeWhile isDigitCh
    if ds.isEmpty then none else some (ds, r.dropWhile isDigitCh)
  | cs => some ([], cs)

/-- Exponent part of a JSON number, defaulting to zero when absent. -/
def parseExpPart : List Char → Option (Int × List Char)
  | [] => some (0, [])
  | c :: r =>
    if c == 'e' || c == 'E' then
      match r with
      | '+' :: r2 =>
        let ds := r2.takeWhile isDigitCh
        if ds.isEmpty then none
        else some ((digitsToNat ds : Int), r2.dropWhile isDigitCh)
      | '-' :: r2 =>
        let ds := r2.takeWhile isDigitCh
        if ds.isEmpty then none
        else some (-(digitsToNat ds : Int), r2.dropWhile isDigitCh)
      | _ =>
        let ds := r.takeWhile isDigitCh
        if ds.isEmpty then none
        else some ((digitsToNat ds : Int), r.dropWhile isDigitCh)
    else some (0, c :: r)

/-- JSON number: optional minus, integer part with no leading zero,
optional fraction and exponent; the literal is kept exactly. -/
def parseJNumber (cs : List Char) : Option (JNum × List Char) :=
  let (neg, r1) :=
    match cs with
    | '-' :: r => (true, r)
    | _ => (false, cs)
  let ds := r1.takeWhile isDigitCh
  let r2 := r1.dropWhile isDigitCh
  if ds.isEmpty then none
  else if 1 < ds.length && ds.headD '0' == '0' then none
  else
    match parseFrac r2 with
    | none => none
    | some (fds, r3) =>
      match parseExpPart r3 with
      | none => none
      | some (e, r4) =>
        some ({ neg := neg, mant := digitsToNat (ds ++ fds),
                fracLen := fds.length, exp10 := e }, r4)

/-- Property write on a JavaScript object: replace the value of an existing
key in place, else append the new field. -/
def objSet (fs : List (String × Json)) (k : String) (v : Json) :
    List (String × Json) :=
  match fs with
  | [] => [(k, v)]
  | (k2, v2) :: t => if k2 == k then (k2, v) :: t else (k2, v2) :: objSet t k v

/-- Property read on a JavaScript object. -/
def objLookup (k : String) (fs : List (String × Json)) : Option Json :=
  (fs.find? (fun p => p.1 == k)).map (fun p => p.2)

/-- Mode of the recursive-descent JSON reader: one value, the items of an
array after the opening bracket, or the members of an object after the
opening brace (with the fields read so far). -/
inductive PMode where
  | value
  | arrItems
  | objMembers (acc : List (String × Json))

/-- Fuel-bounded recursive descent as JSON.parse performs it. In value
mode: leading whitespace skipped, then null, true, false, string, array,
object or number. Array-item and object-member modes read the
comma-separated elements up to the closing bracket or brace, objects
accumulated with JavaScript property-write semantics. -/
def parseJ : Nat → PMode → List Char → Option (Json × List Char)
  | 0, _, _ => none
  | fuel + 1, PMode.value, cs =>
    match skipJWs cs with
    | 'n' :: 'u' :: 'l' :: 'l' :: r => some (Json.null, r)
    | 't' :: 'r' :: 'u' :: 'e' :: r => some (Json.bool true, r)
    | 'f' :: 'a' :: 'l' :: 's' :: 'e' :: r => some (Json.bool false, r)
    | '"' :: r => (parseJStringAux [] r).map (fun p => (Json.str p.1, p.2))
    | '[' :: r =>
      (match skipJWs r with
       | ']' :: r2 => some (Json.arr [], r2)
       | r2 => parseJ fuel PMode.arrItems r2)
    | c :: r =>
      if c = lcurly then
        match skipJWs r with
        | [] => none
        | c2 :: r2 =>
          if c2 = rcurly then some (Json.obj [], r2)
          else parseJ fuel (PMode.objMembers []) (c2 :: r2)
      else (parseJNumber (c :: r)).map (fun p => (Json.num p.1, p.2))
    | [] => none
  | fuel + 1, PMode.arrItems, cs =>
    match parseJ fuel PMode.value cs with
    | none => none
    | some (v, r) =>
      match skipJWs r with
      | ',' :: r2 =>
        (match parseJ fuel PMode.arrItems r2 with
         | some (Json.arr xs, r3) => some (Json.arr (v :: xs), r3)
         | _ => none)
      | ']' :: r2 => some (Json.arr [v], r2)
      | _ => none
  | fuel + 1, PMode.objMembers acc, cs =>
    match skipJWs cs with
    | '"' :: r =>
      match parseJStringAux [] r with
      | none => none
      | some (k, r2) =>
        match skipJWs r2 with
        | ':' :: r3 =>
          match parseJ fuel PMode.value r3 with
          | none => none
          | some (v, r4) =>
            match skipJWs r4 with
            | ',' :: r5 => parseJ fuel (PMode.objMembers (objSet acc k v)) r5
            | c :: r5 =>
              if c = rcurly then some (Json.obj (objSet acc k v), r5) else none
            | [] => none
        | _ => none
    | _ => none

/-- JSON.parse: parse one value and require only whitespace to remain. The
fuel bounds the recursion depth, which a value of n characters never
exceeds. -/
def jsonParse (s : String) : Option Json :=
  match parseJ (2 * s.length + 4) PMode.value s.data with
  | some (v, r) => if (skipJWs r).isEmpty then some v else none
  | none => none

/-- The match of the regex brace, any characters, brace (greedy) used at
page.tsx line 344: the substring from the first opening brace to the last
closing brace of the whole text, provided that closing brace lies after
that opening brace; no match otherwise. -/
def jsonSpan (s : String) : Option String :=
  let cs := s.data
  match cs.findIdx? (fun c => c == lcurly) with
  | none => none
  | some i =>
    match cs.reverse.findIdx? (fun c => c == rcurly) with
    | none => none
    | some rj =>
      let j := cs.length - 1 - rj
      if i < j then some (String.mk ((cs.drop i).take (j - i + 1))) else none

/-- JavaScript truthiness of a JSON value: null, false, zero and the empty
string are falsy; arrays and objects are objects and always truthy. -/
def jsTruthy : Json → Bool
  | Json.null => false
  | Json.bool b => b
  | Json.num n => !n.isZero
  | Json.str s => !(s == "")
  | Json.arr _ => true
  | Json.obj _ => true

/-- The statement of page.tsx lines 335-337: if the parsed value lacks a
truthy foodItems property, assign an empty array to it. On an object this
reads and possibly writes the property. On an array the write succeeds (an
array is an object) but adds a property the JSON model cannot observe. On
null the read throws, and on a primitive the strict-mode write throws;
those exceptions are caught by the enclosing catch, modelled by none. -/
def ensureFoodItems : Json → Option Json
  | Json.obj fs =>
    match objLookup ("foodItems") fs with
    | some v =>
      if jsTruthy v then some (Json.obj fs)
      else some (Json.obj (objSet fs ("foodItems") (Json.arr [])))
    | none => some (Json.obj (objSet fs ("foodItems") (Json.arr [])))
  | Json.arr xs => some (Json.arr xs)
  | _ => none

/-- The value page.tsx stores after the foodItems backfill, as a total
function (identical to ensureFoodItems where that succeeds). -/
def withFoodItemsDefault : Json → Json
  | Json.obj fs =>
    match objLookup ("foodItems") fs with
    | some v =>
      if jsTruthy v then Json.obj fs
      else Json.obj (objSet fs ("foodItems") (Json.arr []))
    | none => Json.obj (objSet fs ("foodItems") (Json.arr []))
  | v => v

/-- Whether the parsed value has a foodItems property at all. -/
def hasFoodItems : Json → Bool
  | Json.obj fs => (objLookup ("foodItems") fs).isSome
  | _ => false

/-- Result of the response normalizer: either the value stored by one of
the two JSON-parse paths, or the record built by the heuristic fallback. -/
inductive NormResult where
  | parsed (v : Json)
  | estimated (d : CarbData)

/-- Whether the result came from the heuristic fallback. -/
def NormResult.isEstimated : NormResult → Bool
  | NormResult.estimated _ => true
  | NormResult.parsed _ => false

/-- The fallback outcome: estimated record plus the degraded-confidence
flag (page.tsx lines 358-360 and 364-366 set the error message exactly on
these two branches). -/
def fallbackFor (content : String) : NormResult × Bool :=
  (NormResult.estimated (generateEstimatedCarbData content), true)

/-- The embedded-object attempt of page.tsx lines 344-361: extract the
greedy brace span, JSON-parse it, backfill foodItems; any failure falls
back to the heuristic record with the degraded flag. -/
def embeddedOrFallback (content : String) : NormResult × Bool :=
  match jsonSpan content with
  | none => fallbackFor content
  | some sub =>
    match jsonParse sub with
    | none => fallbackFor content
    | some v =>
      match ensureFoodItems v with
      | none => fallbackFor content
      | some v2 => (NormResult.parsed v2, false)

/-- The response normalizer of analyzeImage, page.tsx lines 330-368:
direct JSON parse with foodItems backfill; on any exception the embedded
attempt; on any further failure the heuristic fallback with the degraded
flag. -/
def normalizeResponse (content : String) : NormResult × Bool :=
  match jsonParse content with
  | none => embeddedOrFallback content
  | some v =>
    match ensureFoodItems v with
    | none => embeddedOrFallback content
    | some v2 => (NormResult.parsed v2, false)

/-- Confidence field check of the schema in section 3 of the spec. -/
def confOk : Option Json → Bool
  | none => true
  | some (Json.str s) => s == "high" || s == "medium" || s == "low"
  | some _ => false

/-- The option holds a non-negative number. -/
def nonnegNum : Option Json → Bool
  | some (Json.num n) => n.isNonneg
  | _ => false

/-- A food item of the schema in section 3 of the spec: non-empty name,
positive weight, non-negative carbs, optional confidence level. -/
def isFoodItemJson : Json → Bool
  | Json.obj fs =>
    (match objLookup ("name") fs with
     | some (Json.str s) => !(s == "")
     | _ => false) &&
    (match objLookup ("weight") fs with
     | some (Json.num n) => n.isPos
     | _ => false) &&
    nonnegNum (objLookup ("carbs") fs) &&
    confOk (objLookup ("confidence") fs)
  | _ => false

/-- The breakdown object of the schema: three non-negative numbers. -/
def isBreakdownJson : Json → Bool
  | Json.obj fs =>
    nonnegNum (objLookup ("fiber") fs) && nonnegNum (objLookup ("sugar") fs) &&
    nonnegNum (objLookup ("starch") fs)
  | _ => false

/-- A value matching the NutritionRecord schema of section 3 of the spec:
non-negative totalCarbs, a breakdown object, and, when present, a
foodItems array of schema food items. -/
def isNutritionJson : Json → Bool
  | Json.obj fs =>
    nonnegNum (objLookup ("totalCarbs") fs) &&
    (match objLookup ("breakdown") fs with
     | some b => isBreakdownJson b
     | none => false) &&
    (match objLookup ("foodItems") fs with
     | none => true
     | some (Json.arr xs) => xs.all isFoodItemJson
     | some _ => false)
  | _ => false

/-- UI views of the app (type View of page.tsx). -/
inductive View where
  | camera
  | preview
  | settings
  | details
deriving DecidableEq

/-- The mutable session state of the component: current view, the apiKey
state variable, the credential-entry modal flag, the captured image, the
loading flag, the error message, the current record, and the value
persisted in local storage. -/
structure AppState where
  view : View
  apiKey : String
  showApiKeyModal : Bool
  capturedImage : Option String
  isLoading : Bool
  errorMsg : Option String
  carbData : Option NormResult
  storedKey : Option String

/-- Externally visible effects of a step: opening the file dialog, or
issuing the inference request with the bearer credential in use. -/
inductive Effect where
  | openFileDialog
  | fetchInference (bearer : String) (image : String)
deriving DecidableEq

/-- User and network events the component handles. -/
inductive Event where
  | galleryClick
  | captureClick (screenshot : Option String)
  | retryClick
  | keyInput (s : String)
  | saveKeyClick
  | openSettings
  | closeSettings
  | openPreview
  | inferenceOk (content : String)
  | inferenceFail (msg : String)

/-- State on mount: camera view, no key loaded, nothing captured. -/
def initState : AppState :=
  { view := View.camera, apiKey := "", showApiKeyModal := false,
    capturedImage := none, isLoading := false, errorMsg := none,
    carbData := none, storedKey := none }

/-- One step of the component. Each arm is the corresponding handler of
page.tsx, guarded by the visibility of the control that triggers it:
handleGalleryClick and capturePhoto (camera view) check the apiKey state
and open the credential modal when it is empty before doing anything else;
retryAnalysis (preview view with a failed analysis) starts analyzeImage
with no credential check; the settings input writes the apiKey state on
every change; saveApiKey persists it; the inference events finish
analyzeImage, with the degraded-confidence error message exactly when the
normalizer fell back. -/
def step (s : AppState) : Event → AppState × List Effect
  | Event.galleryClick =>
    if s.view = View.camera then
      if s.apiKey = "" then ({ s with showApiKeyModal := true }, [])
      else (s, [Effect.openFileDialog])
    else (s, [])
  | Event.captureClick shot =>
    if s.view = View.camera then
      if s.apiKey = "" then ({ s with showApiKeyModal := true }, [])
      else
        match shot with
        | some img =>
          ({ s with capturedImage := some img, view := View.preview,
                    isLoading := true, errorMsg := none },
           [Effect.fetchInference s.apiKey img])
        | none => (s, [])
    else (s, [])
  | Event.retryClick =>
    if s.view = View.preview ∧ s.isLoading = false ∧ s.errorMsg.isSome ∧
       s.carbData.isNone = true then
      match s.capturedImage with
      | some img =>
        ({ s with isLoading := true, errorMsg := none },
         [Effect.fetchInference s.apiKey img])
      | none => (s, [])
    else (s, [])
  | Event.keyInput k =>
    if s.view = View.settings ∨ s.showApiKeyModal = true then
      ({ s with apiKey := k }, [])
    else (s, [])
  | Event.saveKeyClick =>
    if (s.view = View.settings ∨ s.showApiKeyModal = true) ∧ ¬ s.apiKey = "" then
      ({ s with storedKey := some s.apiKey, showApiKeyModal := false }, [])
    else (s, [])
  | Event.openSettings =>
    if s.view = View.camera ∨
       (s.view = View.preview ∧ s.isLoading = false ∧ s.errorMsg.isSome ∧
        s.carbData.isNone = true) then
      ({ s with view := View.settings }, [])
    else (s, [])
  | Event.closeSettings =>
    if s.view = View.settings then ({ s with view := View.camera }, []) else (s, [])
  | Event.openPreview =>
    if s.view = View.camera ∧ s.capturedImage.isSome then
      ({ s with view := View.preview }, [])
    else (s, [])
  | Event.inferenceOk content =>
    if s.isLoading = true then
      ({ s with isLoading := false,
                carbData := some (normalizeResponse content).1,
                errorMsg := if (normalizeResponse content).2 then
                              some ("Could not get precise values. Showing estimates.")
                            else none }, [])
    else (s, [])
  | Event.inferenceFail msg =>
    if s.isLoading = true then
      ({ s with isLoading := false, errorMsg := some msg }, [])
    else (s, [])

/-- Run a list of events from a state, accumulating the effects. -/
def runEvents (s : AppState) : List Event → AppState × List Effect
  | [] => (s, [])
  | e :: es =>
    let p := step s e
    let q := runEvents p.1 es
    (q.1, p.2 ++ q.2)

/-- A session in which the user saves a key, captures a meal, sees the
analysis fail, clears the key field in settings without saving, returns,
reopens the preview and presses Retry: the retry issues the inference
request with the now-empty credential. -/
def staleKeyTrace : List Event :=
  [Event.openSettings, Event.keyInput ("sk-live"), Event.saveKeyClick,
   Event.closeSettings, Event.captureClick (some ("meal.jpg")),
   Event.inferenceFail ("API error: 500"), Event.openSettings,
   Event.keyInput (""), Event.closeSettings, Event.openPreview,
   Event.retryClick]

/-- Dimension computation of compressImage, page.tsx lines 144-156: scale
the width down to 1200 preserving the ratio, then the (updated) height
likewise. JavaScript numbers modelled by the rationals. -/
def compressDims (w h : ℚ) : ℚ × ℚ :=
  let p1 : ℚ × ℚ := if 1200 < w then (1200, h * 1200 / w) else (w, h)
  if 1200 < p1.2 then (p1.1 * 1200 / p1.2, 1200) else p1

/-- The integer canvas dimensions: the canvas width and height attributes
truncate the (positive) computed values toward zero. -/
def canvasDims (w h : Nat) : Nat × Nat :=
  let p := compressDims (w : ℚ) (h : ℚ)
  ((⌊p.1⌋).toNat, (⌊p.2⌋).toNat)

/-- A schema-correct response text used as the C4 witness. -/
def jgoodText : String :=
  "\x7b\"totalCarbs\": 30, \"breakdown\": \x7b\"fiber\": 5, \"sugar\": 10, \"starch\": 15\x7d, \"foodItems\": []\x7d"

/-- The value jgoodText parses to. -/
def jgoodVal : Json :=
  Json.obj
    [("totalCarbs", Json.num { neg := false, mant := 30, fracLen := 0, exp10 := 0 }),
     ("breakdown", Json.obj
        [("fiber", Json.num { neg := false, mant := 5, fracLen := 0, exp10 := 0 }),
         ("sugar", Json.num { neg := false, mant := 10, fracLen := 0, exp10 := 0 }),
         ("starch", Json.num { neg := false, mant := 15, fracLen := 0, exp10 := 0 })]),
     ("foodItems", Json.arr [])]

/-- A response wrapping the structured object in prose, the C5 witness. -/
def jproseText : String :=
  "Here you go: \x7b\"totalCarbs\": 12, \"breakdown\": \x7b\"fiber\": 2, \"sugar\": 4, \"starch\": 6\x7d, \"foodItems\": []\x7d Thanks!"

/-- The greedy brace span of jproseText. -/
def jproseSub : String :=
  "\x7b\"totalCarbs\": 12, \"breakdown\": \x7b\"fiber\": 2, \"sugar\": 4, \"starch\": 6\x7d, \"foodItems\": []\x7d"

/-- The value jproseSub parses to. -/
def jproseVal : Json :=
  Json.obj
    [("totalCarbs", Json.num { neg := false, mant := 12, fracLen := 0, exp10 := 0 }),
     ("breakdown", Json.obj
        [("fiber", Json.num { neg := false, mant := 2, fracLen := 0, exp10 := 0 }),
         ("sugar", Json.num { neg := false, mant := 4, fracLen := 0, exp10 := 0 }),
         ("starch", Json.num { neg := false, mant := 6, fracLen := 0, exp10 := 0 })]),
     ("foodItems", Json.arr [])]

/-- The totalCarbs literal of a parsed normalizer result. -/
def parsedTotalCarbs : NormResult → Option JNum
  | NormResult.parsed (Json.obj fs) =>
    match objLookup ("totalCarbs") fs with
    | some (Json.num n) => some n
    | _ => none
  | _ => none

/-- A well-formed response carrying a negative totalCarbs. -/
def jnegText : String :=
  "\x7b\"totalCarbs\": -5, \"breakdown\": \x7b\"fiber\": 0, \"sugar\": 0, \"starch\": 0\x7d, \"foodItems\": []\x7d"

theorem JNum.val_of_neg (n : JNum) (h : n.neg = true) :
    n.val = -(n.mant : ℚ) * (10 : ℚ) ^ (n.exp10 - n.fracLen) := by
  simp [JNum.val, h]

theorem JNum.val_of_pos_sign (n : JNum) (h : n.neg = false) :
    n.val = (n.mant : ℚ) * (10 : ℚ) ^ (n.exp10 - n.fracLen) := by
  simp [JNum.val, h]

theorem JNum.isNonneg_iff (n : JNum) : n.isNonneg = true ↔ 0 ≤ n.val := by
  have hp : (0 : ℚ) < (10 : ℚ) ^ (n.exp10 - n.fracLen) := by positivity
  cases hneg : n.neg with
  | false =>
    rw [JNum.val_of_pos_sign n hneg]
    simp only [JNum.isNonneg, hneg, Bool.not_false, Bool.true_or, true_iff]
    positivity
  | true =>
    rw [JNum.val_of_neg n hneg]
    simp only [JNum.isNonneg, hneg, Bool.not_true, Bool.false_or, beq_iff_eq]
    constructor
    · intro h
      simp [h]
    · intro h
      by_contra hm
      have h0 : (0 : ℚ) < (n.mant : ℚ) := by exact_mod_cast Nat.pos_of_ne_zero hm
      nlinarith

theorem JNum.isPos_iff (n : JNum) : n.isPos = true ↔ 0 < n.val := by
  have hp : (0 : ℚ) < (10 : ℚ) ^ (n.exp10 - n.fracLen) := by positivity
  cases hneg : n.neg with
  | false =>
    rw [JNum.val_of_pos_sign n hneg]
    simp only [JNum.isPos, hneg, Bool.not_false, Bool.true_and, Bool.not_eq_true',
      beq_eq_false_iff_ne, ne_eq]
    constructor
    · intro hm
      have h0 : (0 : ℚ) < (n.mant : ℚ) := by exact_mod_cast Nat.pos_of_ne_zero hm
      positivity
    · intro h hm
      rw [hm] at h
      simp at h
  | true =>
    rw [JNum.val_of_neg n hneg]
    simp only [JNum.isPos, hneg, Bool.not_true, Bool.false_and, Bool.false_eq_true,
      false_iff, not_lt]
    nlinarith [Nat.cast_nonneg (α := ℚ) n.mant]

theorem JNum.isZero_iff (n : JNum) : n.isZero = true ↔ n.val = 0 := by
  have hp : (10 : ℚ) ^ (n.exp10 - n.fracLen) ≠ 0 := by positivity
  have hcast : ((n.mant : ℚ) = 0) ↔ n.mant = 0 := by exact_mod_cast Iff.rfl
  cases hneg : n.neg with
  | false =>
    rw [JNum.isZero, JNum.val_of_pos_sign n hneg]
    simp [hp, hcast]
  | true =>
    rw [JNum.isZero, JNum.val_of_neg n hneg]
    simp [hp, hcast]

/-- A word character is not whitespace. -/
theorem isWordCh_not_ws {c : Char} (h : isWordCh c = true) : isJsWs c = false := by
  simp only [isWordCh, Bool.or_eq_true, Bool.and_eq_true, decide_eq_true_eq,
    beq_iff_eq] at h
  simp only [isJsWs, Bool.or_eq_false_iff, Bool.and_eq_false_iff, decide_eq_false_iff_not,
    beq_eq_false_iff_ne, ne_eq, not_le]
  omega

/-- A string made from a non-empty character list is non-empty. -/
theorem stringMk_ne_empty {l : List Char} (h : l ≠ []) : String.mk l ≠ "" := by
  intro he
  apply h
  simpa using congrArg String.data he

/-- Trimming a list whose head is not whitespace yields a non-empty list. -/
theorem jsTrim_ne_nil {c : Char} {t : List Char} (h : isJsWs c = false) :
    jsTrim (c :: t) ≠ [] := by
  unfold jsTrim
  rw [List.dropWhile_cons, if_neg (by simp [h])]
  intro hnil
  have h2 : (c :: t).reverse.dropWhile isJsWs = [] := by
    simpa using congrArg List.reverse hnil
  rw [List.dropWhile_eq_nil_iff] at h2
  have h3 := h2 c (by simp)
  rw [h] at h3
  exact Bool.false_ne_true h3

/-- Every item produced by an anchored food-item match has confidence low
and a non-empty name. -/
theorem matchItemAt_item {cs : List Char} {it : FoodItem} {r : List Char}
    (h : matchItemAt cs = some (it, r)) :
    it.confidence = some ("low") ∧ it.name ≠ "" := by
  cases cs with
  | nil => simp [matchItemAt] at h
  | cons c t =>
    simp only [matchItemAt] at h
    by_cases hw : isWordCh c = true
    · rw [if_pos hw] at h
      split at h
      · split at h
        · simp only [Option.some.injEq, Prod.mk.injEq] at h
          obtain ⟨hit, -⟩ := h
          subst hit
          refine ⟨rfl, ?_⟩
          apply stringMk_ne_empty
          have hname : (c :: t).takeWhile isNameCh = c :: t.takeWhile isNameCh := by
            rw [List.takeWhile_cons, if_pos (by simp [isNameCh, hw])]
          rw [hname]
          exact jsTrim_ne_nil (isWordCh_not_ws hw)
        · simp at h
      · simp at h
    · rw [if_neg hw] at h
      simp at h

/-- Every item produced by the global item scan has confidence low and a
non-empty name. -/
theorem scanItemsF_item :
    ∀ (fuel : Nat) (cs : List Char) (it : FoodItem), it ∈ scanItemsF fuel cs →
      it.confidence = some ("low") ∧ it.name ≠ "" := by
  intro fuel
  induction fuel with
  | zero => intro cs it h; simp [scanItemsF] at h
  | succ n ih =>
    intro cs it h
    cases cs with
    | nil => simp [scanItemsF] at h
    | cons c t =>
      cases hm : matchItemAt (c :: t) with
      | none =>
        rw [scanItemsF, hm] at h
        exact ih t it h
      | some p =>
        obtain ⟨it2, r2⟩ := p
        rw [scanItemsF, hm] at h
        rcases List.mem_cons.mp h with h1 | h1
        · rw [h1]
          exact matchItemAt_item hm
        · exact ih r2 it h1

/-- The fallback record always carries a non-empty item list whose items
all have confidence low and non-empty names. -/
theorem gen_record_wellformed (text : String) :
    (generateEstimatedCarbData text).foodItems ≠ [] ∧
    ∀ it ∈ (generateEstimatedCarbData text).foodItems,
      it.confidence = some ("low") ∧ it.name ≠ "" := by
  unfold generateEstimatedCarbData
  by_cases he : (itemMatches text).isEmpty = true
  · simp only [he, if_true]
    constructor
    · simp
    · intro it hit
      simp only [List.mem_singleton] at hit
      subst hit
      exact ⟨rfl, by simp⟩
  · simp only [he, if_false]
    constructor
    · simpa [List.isEmpty_iff] using he
    · intro it hit
      exact scanItemsF_item text.data.length text.data it hit

/-- On an object, the backfill of page.tsx lines 335-337 never throws and
stores exactly withFoodItemsDefault. -/
theorem ensureFoodItems_obj (fs : List (String × Json)) :
    ensureFoodItems (Json.obj fs) = some (withFoodItemsDefault (Json.obj fs)) := by
  cases h : objLookup ("foodItems") fs with
  | none => simp [ensureFoodItems, withFoodItemsDefault, h]
  | some v =>
    by_cases ht : jsTruthy v = true <;>
      simp [ensureFoodItems, withFoodItemsDefault, h, ht]

/-- A value matching the NutritionRecord schema is an object. -/
theorem isNutritionJson_obj {v : Json} (hs : isNutritionJson v = true) :
    ∃ fs, v = Json.obj fs := by
  cases v with
  | obj fs => exact ⟨fs, rfl⟩
  | null => exact absurd hs (by simp [isNutritionJson])
  | bool b => exact absurd hs (by simp [isNutritionJson])
  | num n => exact absurd hs (by simp [isNutritionJson])
  | str s => exact absurd hs (by simp [isNutritionJson])
  | arr xs => exact absurd hs (by simp [isNutritionJson])

/-- The embedded-or-fallback stage: the flag equals the estimated marker,
an estimated result is exactly the heuristic record, and an unflagged
result is a parsed value. -/
theorem embeddedOrFallback_flag (content : String) :
    ((embeddedOrFallback content).2 = (embeddedOrFallback content).1.isEstimated) ∧
    ((embeddedOrFallback content).1.isEstimated = true →
      (embeddedOrFallback content).1 =
        NormResult.estimated (generateEstimatedCarbData content)) ∧
    ((embeddedOrFallback content).2 = false →
      ∃ v, (embeddedOrFallback content).1 = NormResult.parsed v) := by
  cases hsp : jsonSpan content with
  | none => simp [embeddedOrFallback, fallbackFor, hsp, NormResult.isEstimated]
  | some sub =>
    cases hjp : jsonParse sub with
    | none => simp [embeddedOrFallback, fallbackFor, hsp, hjp, NormResult.isEstimated]
    | some v =>
      cases hef : ensureFoodItems v with
      | none =>
        simp [embeddedOrFallback, fallbackFor, hsp, hjp, hef, NormResult.isEstimated]
      | some v2 =>
        simp [embeddedOrFallback, fallbackFor, hsp, hjp, hef, NormResult.isEstimated]

/-- C1: for every response text the normalizer returns some record (it is
a total function built from the three ordered attempts), and the
degraded-confidence signal is raised if and only if the heuristic fallback
produced the record: the flag is true exactly on estimated results, a
flagged result is exactly the heuristic record, and an unflagged result
comes from one of the two parse paths. -/
theorem normalizer_total_and_degraded_iff (content : String) :
    ((normalizeResponse content).2 = true ↔
      (normalizeResponse content).1.isEstimated = true) ∧
    ((normalizeResponse content).2 = true →
      (normalizeResponse content).1 =
        NormResult.estimated (generateEstimatedCarbData content)) ∧
    ((normalizeResponse content).2 = false →
      ∃ v, (normalizeResponse content).1 = NormResult.parsed v) := by
  cases hjp : jsonParse content with
  | none =>
    have h := embeddedOrFallback_flag content
    have he : normalizeResponse content = embeddedOrFallback content := by
      simp [normalizeResponse, hjp]
    rw [he]
    exact ⟨by rw [h.1], fun hf => h.2.1 (h.1.symm.trans hf), h.2.2⟩
  | some v =>
    cases hef : ensureFoodItems v with
    | none =>
      have h := embeddedOrFallback_flag content
      have he : normalizeResponse content = embeddedOrFallback content := by
        simp [normalizeResponse, hjp, hef]
      rw [he]
      exact ⟨by rw [h.1], fun hf => h.2.1 (h.1.symm.trans hf), h.2.2⟩
    | some v2 =>
      have he : normalizeResponse content = (NormResult.parsed v2, false) := by
        simp [normalizeResponse, hjp, hef]
      rw [he]
      refine ⟨by simp [NormResult.isEstimated], ?_, ?_⟩
      · intro hf
        exact absurd hf (by simp)
      · intro hf
        exact ⟨v2, rfl⟩

/-- Witness for C1 at a concrete unparsable response. -/
theorem normalizer_total_and_degraded_iff_witness :
    (normalizeResponse ("oops")).2 = true ∧
    (normalizeResponse ("oops")).1 =
      NormResult.estimated (generateEstimatedCarbData ("oops")) :=
  ⟨by rfl, (normalizer_total_and_degraded_iff ("oops")).2.1 (by rfl)⟩

/-- C2 counterexample. The component regexes require the grams before the
keyword, so the phrase fiber colon 5g matches nothing; and when a
component does match, the unfound components keep their defaults 5, 10 and
15 and enter the sum. For the text 7g of fiber, the claim predicts a total
of 7 (sum of found components, unfound 0) but the code produces
7 + 10 + 15 = 32; for the text of the claim's own example the claim
predicts a total of 15 and starch 0, but the code produces the full
default record with total 30 and starch 15. -/
theorem c2_sum_counterexample :
    (generateEstimatedCarbData ("7g of fiber")).totalCarbs ≠ 7 ∧
    (generateEstimatedCarbData ("fiber: 5g, sugar: 10g")).totalCarbs ≠ 15 ∧
    (generateEstimatedCarbData ("fiber: 5g, sugar: 10g")).breakdown.starch ≠ 0 := by
  decide

/-- C2 as amended: when no total-carb phrase matches but at least one of
the fiber, sugar or starch patterns (of the form grams before keyword)
matches, totalCarbs is the sum fiber + sugar + starch of the breakdown in
which matched components carry the extracted number and unmatched
components keep their defaults 5, 10 and 15. -/
theorem fallback_total_is_breakdown_sum (text : String)
    (hc : carbMatch text = none)
    (hsome : fiberMatch text ≠ none ∨ sugarMatch text ≠ none ∨
      starchMatch text ≠ none) :
    (generateEstimatedCarbData text).totalCarbs =
      (fiberMatch text).getD 5 + (sugarMatch text).getD 10 +
        (starchMatch text).getD 15 ∧
    (generateEstimatedCarbData text).breakdown =
      { fiber := (fiberMatch text).getD 5, sugar := (sugarMatch text).getD 10,
        starch := (starchMatch text).getD 15 } := by
  have hcond : ((carbMatch text).isNone &&
      ((fiberMatch text).isSome || (sugarMatch text).isSome ||
        (starchMatch text).isSome)) = true := by
    rcases hsome with h | h | h
    · obtain ⟨x, hx⟩ := Option.ne_none_iff_exists'.mp h
      simp [hc, hx]
    · obtain ⟨x, hx⟩ := Option.ne_none_iff_exists'.mp h
      simp [hc, hx]
    · obtain ⟨x, hx⟩ := Option.ne_none_iff_exists'.mp h
      simp [hc, hx]
  constructor <;> simp [generateEstimatedCarbData, hcond]

/-- Witness for C2 as amended, at the text 7g of fiber and 10g of sugar. -/
theorem fallback_total_is_breakdown_sum_witness :
    (generateEstimatedCarbData ("7g of fiber and 10g of sugar")).totalCarbs = 32 ∧
    (generateEstimatedCarbData ("7g of fiber and 10g of sugar")).breakdown =
      { fiber := 7, sugar := 10, starch := 15 } := by
  have h := fallback_total_is_breakdown_sum ("7g of fiber and 10g of sugar")
    (by decide) (Or.inl (by decide))
  exact ⟨by rw [h.1]; decide, by rw [h.2]; decide⟩

/-- C3 counterexample: for the claim's own example text 42g of carbs the
recovered total is 42, yet the single default item carries carbs 30, not
the recovered total. -/
theorem c3_default_item_counterexample :
    (generateEstimatedCarbData ("42g of carbs")).totalCarbs = 42 ∧
    (generateEstimatedCarbData ("42g of carbs")).foodItems.map FoodItem.carbs =
      [30] := by
  decide

/-- C3 as amended: when the heuristic fallback finds no food-item pattern
match, the returned foodItems is the single default item named Unknown
food item with weight 100 and carbs 30 (the default total), regardless of
any recovered totalCarbs. -/
theorem fallback_default_item (text : String) (h : itemMatches text = []) :
    (generateEstimatedCarbData text).foodItems =
      [{ name := "Unknown food item", weight := 100, carbs := 30,
         confidence := some ("low") }] := by
  simp [generateEstimatedCarbData, h]

/-- Witness for C3 as amended at a concrete text with no item match. -/
theorem fallback_default_item_witness :
    (generateEstimatedCarbData ("42g of carbs please")).foodItems =
      [{ name := "Unknown food item", weight := 100, carbs := 30,
         confidence := some ("low") }] :=
  fallback_default_item ("42g of carbs please") (by decide)

/-- C7: for a text containing the item pattern twice, the fallback returns
the two FoodItems in the order encountered, with low confidence. -/
theorem fallback_items_in_text_order :
    (generateEstimatedCarbData
      ("Chicken: 150g, 0g of carbs. Rice: 200g, 45g carbs.")).foodItems =
    [{ name := "Chicken", weight := 150, carbs := 0, confidence := some ("low") },
     { name := "Rice", weight := 200, carbs := 45, confidence := some ("low") }] := by
  decide

/-- C8: for every text the fallback record has a non-empty foodItems list
and every item has confidence low and a non-empty name; its numeric
fields (totalCarbs, fiber, sugar, starch, item weight and carbs) are of
type Nat in this embedding, non-negative integers by construction since
they arise from parseInt on digit runs or from the constant defaults. -/
theorem fallback_record_wellformed (text : String) :
    (generateEstimatedCarbData text).foodItems ≠ [] ∧
    ∀ it ∈ (generateEstimatedCarbData text).foodItems,
      it.confidence = some ("low") ∧ it.name ≠ "" :=
  gen_record_wellformed text

/-- Witness for C8 at a concrete text, membership discharged concretely. -/
theorem fallback_record_wellformed_witness :
    ({ name := "Unknown food item", weight := 100, carbs := 30,
       confidence := some ("low") } : FoodItem).confidence = some ("low") ∧
    ({ name := "Unknown food item", weight := 100, carbs := 30,
       confidence := some ("low") } : FoodItem).name ≠ "" :=
  (fallback_record_wellformed ("x")).2
    { name := "Unknown food item", weight := 100, carbs := 30,
      confidence := some ("low") } (by decide)

/-- An estimated normalizer result is exactly the heuristic record of the
same content. -/
theorem normalizeResponse_estimated {content : String} {d : CarbData}
    (h : (normalizeResponse content).1 = NormResult.estimated d) :
    d = generateEstimatedCarbData content := by
  have hemb : ∀ hheq : normalizeResponse content = embeddedOrFallback content,
      d = generateEstimatedCarbData content := by
    intro hheq
    rw [hheq] at h
    have hest : (embeddedOrFallback content).1.isEstimated = true := by
      rw [h]
      rfl
    have h3 := (embeddedOrFallback_flag content).2.1 hest
    rw [h] at h3
    injection h3
  cases hjp : jsonParse content with
  | none => exact hemb (by simp [normalizeResponse, hjp])
  | some v =>
    cases hef : ensureFoodItems v with
    | none => exact hemb (by simp [normalizeResponse, hjp, hef])
    | some v2 =>
      have he : normalizeResponse content = (NormResult.parsed v2, false) := by
        simp [normalizeResponse, hjp, hef]
      rw [he] at h
      simp at h

/-- C4: for every text that direct-parses to a value matching the
NutritionRecord schema, the normalizer stores exactly the parsed value
with no degradation flag (round-trip identity), the only change being the
foodItems backfill, which is the identity whenever the field is present. -/
theorem direct_parse_roundtrip (text : String) (v : Json)
    (hp : jsonParse text = some v) (hs : isNutritionJson v = true) :
    normalizeResponse text = (NormResult.parsed (withFoodItemsDefault v), false) ∧
    (hasFoodItems v = true → withFoodItemsDefault v = v) := by
  obtain ⟨fs, rfl⟩ := isNutritionJson_obj hs
  constructor
  · simp [normalizeResponse, hp, ensureFoodItems_obj]
  · intro hhas
    simp only [hasFoodItems] at hhas
    obtain ⟨fv, hl⟩ := Option.isSome_iff_exists.mp hhas
    have harr : ∃ xs, fv = Json.arr xs := by
      simp only [isNutritionJson, Bool.and_eq_true] at hs
      obtain ⟨-, hfi⟩ := hs
      rw [hl] at hfi
      cases fv with
      | arr xs => exact ⟨xs, rfl⟩
      | null => simp at hfi
      | bool b => simp at hfi
      | num n => simp at hfi
      | str s => simp at hfi
      | obj fs2 => simp at hfi
    obtain ⟨xs, rfl⟩ := harr
    simp [withFoodItemsDefault, hl, jsTruthy]

/-- Witness for C4 at the concrete schema-correct text. -/
theorem direct_parse_roundtrip_witness :
    normalizeResponse jgoodText =
      (NormResult.parsed (withFoodItemsDefault jgoodVal), false) ∧
    (hasFoodItems jgoodVal = true → withFoodItemsDefault jgoodVal = jgoodVal) :=
  direct_parse_roundtrip jgoodText jgoodVal (by rfl) (by rfl)

/-- C5: for every text that is not well-formed JSON but whose greedy
first-brace-to-last-brace span parses to a schema-correct value, the
normalizer stores exactly the value obtained by parsing that substring
alone, with the same backfill and no degradation flag. -/
theorem embedded_parse_roundtrip (text sub : String) (v : Json)
    (h1 : jsonParse text = none) (h2 : jsonSpan text = some sub)
    (h3 : jsonParse sub = some v) (hs : isNutritionJson v = true) :
    normalizeResponse text = (NormResult.parsed (withFoodItemsDefault v), false) := by
  obtain ⟨fs, rfl⟩ := isNutritionJson_obj hs
  simp [normalizeResponse, embeddedOrFallback, h1, h2, h3, ensureFoodItems_obj]

/-- Witness for C5 at the concrete prose-wrapped text. -/
theorem embedded_parse_roundtrip_witness :
    normalizeResponse jproseText =
      (NormResult.parsed (withFoodItemsDefault jproseVal), false) :=
  embedded_parse_roundtrip jproseText jproseSub jproseVal
    (by rfl) (by rfl) (by rfl) (by rfl)

/-- C6 counterexample: the parse paths validate nothing, so a response
with totalCarbs -5 flows through unflagged with a negative total
(violating the non-negativity invariant), and even the fallback can emit
an item of weight 0 (violating the positive-weight invariant), from the
text Chicken: 0g, 5g carbs. -/
theorem c6_invariants_counterexample :
    (parsedTotalCarbs (normalizeResponse jnegText).1 =
        some { neg := true, mant := 5, fracLen := 0, exp10 := 0 } ∧
      (normalizeResponse jnegText).2 = false) ∧
    JNum.val { neg := true, mant := 5, fracLen := 0, exp10 := 0 } < 0 ∧
    (generateEstimatedCarbData ("Chicken: 0g, 5g carbs")).foodItems.map
      FoodItem.weight = [0] := by
  refine ⟨⟨by rfl, by rfl⟩, ?_, by decide⟩
  show JNum.val { neg := true, mant := 5, fracLen := 0, exp10 := 0 } < 0
  norm_num [JNum.val]

/-- C6 as amended: every record produced by the heuristic fallback path of
the normalizer has a non-empty item list, non-empty item names and low
item confidence; its numeric fields are naturals (hence non-negative),
though item weight can be zero; the two parse paths store the parsed JSON
unvalidated, so their outputs satisfy the data-model invariants exactly
when the response JSON does. -/
theorem fallback_records_meet_invariants (content : String) (d : CarbData)
    (h : (normalizeResponse content).1 = NormResult.estimated d) :
    d.foodItems ≠ [] ∧
    ∀ it ∈ d.foodItems, it.name ≠ "" ∧ it.confidence = some ("low") := by
  have hd := normalizeResponse_estimated h
  subst hd
  have h2 := gen_record_wellformed content
  exact ⟨h2.1, fun it hit => ⟨(h2.2 it hit).2, (h2.2 it hit).1⟩⟩

/-- Witness for C6 as amended at a concrete unparsable response. -/
theorem fallback_records_meet_invariants_witness :
    (generateEstimatedCarbData ("hello")).foodItems ≠ [] ∧
    ∀ it ∈ (generateEstimatedCarbData ("hello")).foodItems,
      it.name ≠ "" ∧ it.confidence = some ("low") :=
  fallback_records_meet_invariants ("hello")
    (generateEstimatedCarbData ("hello")) (by rfl)

/-- Truncating the floor of a rational bounded by a natural stays bounded. -/
theorem floorNat_le {q : ℚ} {n : Nat} (h : q ≤ (n : ℚ)) : (⌊q⌋).toNat ≤ n := by
  refine Int.toNat_le.mpr ?_
  calc ⌊q⌋ ≤ ⌊(n : ℚ)⌋ := Int.floor_le_floor h
    _ = (n : ℤ) := Int.floor_natCast n

/-- C9: for every positive source dimensions, the canvas dimensions never
exceed the source dimensions, never exceed 1200, and the pre-truncation
rational dimensions preserve the aspect ratio exactly (stated as the cross
product identity); truncation to the integer canvas attributes is the only
rounding. -/
theorem compress_dims_bounded (w h : Nat) (hw : 0 < w) (hh : 0 < h) :
    (canvasDims w h).1 ≤ w ∧ (canvasDims w h).2 ≤ h ∧
    (canvasDims w h).1 ≤ 1200 ∧ (canvasDims w h).2 ≤ 1200 ∧
    (compressDims (w : ℚ) (h : ℚ)).1 * (h : ℚ) =
      (compressDims (w : ℚ) (h : ℚ)).2 * (w : ℚ) := by
  have hW : (0 : ℚ) < (w : ℚ) := by exact_mod_cast hw
  have hH : (0 : ℚ) < (h : ℚ) := by exact_mod_cast hh
  by_cases h1 : (1200 : ℚ) < (w : ℚ)
  · have hD : (0 : ℚ) < (h : ℚ) * 1200 / (w : ℚ) := by positivity
    have hDH : (h : ℚ) * 1200 / (w : ℚ) ≤ (h : ℚ) := by
      rw [div_le_iff₀ hW]
      nlinarith
    by_cases h2 : (1200 : ℚ) < (h : ℚ) * 1200 / (w : ℚ)
    · have e : compressDims (w : ℚ) (h : ℚ) =
          ((1200 : ℚ) * 1200 / ((h : ℚ) * 1200 / (w : ℚ)), 1200) := by
        simp [compressDims, h1, h2]
      have hX : (1200 : ℚ) * 1200 / ((h : ℚ) * 1200 / (w : ℚ)) ≤ 1200 := by
        rw [div_le_iff₀ hD]
        nlinarith
      have h1200h : (1200 : ℚ) ≤ (h : ℚ) := le_trans h2.le hDH
      refine ⟨?_, ?_, ?_, ?_, ?_⟩
      · simp only [canvasDims, e]
        exact floorNat_le (by linarith)
      · simp only [canvasDims, e]
        exact floorNat_le (by linarith)
      · simp only [canvasDims, e]
        exact floorNat_le (by push_cast; linarith)
      · simp only [canvasDims, e]
        exact floorNat_le (by push_cast; linarith)
      · rw [e]
        field_simp
        ring
    · have e : compressDims (w : ℚ) (h : ℚ) =
          ((1200 : ℚ), (h : ℚ) * 1200 / (w : ℚ)) := by
        simp [compressDims, h1, h2]
      refine ⟨?_, ?_, ?_, ?_, ?_⟩
      · simp only [canvasDims, e]
        exact floorNat_le (by linarith)
      · simp only [canvasDims, e]
        exact floorNat_le (by linarith)
      · simp only [canvasDims, e]
        exact floorNat_le (by push_cast; linarith)
      · simp only [canvasDims, e]
        exact floorNat_le (by push_cast; linarith [not_lt.mp h2])
      · rw [e]
        field_simp
        ring
  · have hw1200 : (w : ℚ) ≤ 1200 := not_lt.mp h1
    by_cases h2 : (1200 : ℚ) < (h : ℚ)
    · have e : compressDims (w : ℚ) (h : ℚ) =
          ((w : ℚ) * 1200 / (h : ℚ), 1200) := by
        simp [compressDims, h1, h2]
      have hX : (w : ℚ) * 1200 / (h : ℚ) ≤ (w : ℚ) := by
        rw [div_le_iff₀ hH]
        nlinarith
      refine ⟨?_, ?_, ?_, ?_, ?_⟩
      · simp only [canvasDims, e]
        exact floorNat_le (by linarith)
      · simp only [canvasDims, e]
        exact floorNat_le (by linarith)
      · simp only [canvasDims, e]
        exact floorNat_le (by push_cast; linarith)
      · simp only [canvasDims, e]
        exact floorNat_le (by push_cast; linarith)
      · rw [e]
        field_simp
        ring
    · have hh1200 : (h : ℚ) ≤ 1200 := not_lt.mp h2
      have e : compressDims (w : ℚ) (h : ℚ) = ((w : ℚ), (h : ℚ)) := by
        simp [compressDims, h1, h2]
      refine ⟨?_, ?_, ?_, ?_, ?_⟩
      · simp only [canvasDims, e]
        exact floorNat_le (by linarith)
      · simp only [canvasDims, e]
        exact floorNat_le (by linarith)
      · simp only [canvasDims, e]
        exact floorNat_le (by push_cast; linarith)
      · simp only [canvasDims, e]
        exact floorNat_le (by push_cast; linarith)
      · rw [e]
        ring

/-- Witness for C9 at a 2400 by 1800 source image. -/
theorem compress_dims_bounded_witness :
    (canvasDims 2400 1800).1 ≤ 2400 ∧ (canvasDims 2400 1800).2 ≤ 1800 ∧
    (canvasDims 2400 1800).1 ≤ 1200 ∧ (canvasDims 2400 1800).2 ≤ 1200 ∧
    (compressDims ((2400 : Nat) : ℚ) ((1800 : Nat) : ℚ)).1 * ((1800 : Nat) : ℚ) =
      (compressDims ((2400 : Nat) : ℚ) ((1800 : Nat) : ℚ)).2 * ((2400 : Nat) : ℚ) :=
  compress_dims_bounded 2400 1800 (by decide) (by decide)

/-- C10 as amended: with an empty credential state, the gallery-upload and
capture actions open the credential-entry prompt and produce no effect (no
file dialog, no processing, no network call); the retry action, however,
performs no credential check, so the universal claim that no network
request is ever issued without a stored credential fails (see the
counterexample). -/
theorem credential_guard (s : AppState) (shot : Option String)
    (hv : s.view = View.camera) (hk : s.apiKey = "") :
    step s Event.galleryClick = ({ s with showApiKeyModal := true }, []) ∧
    step s (Event.captureClick shot) = ({ s with showApiKeyModal := true }, []) := by
  constructor <;> simp [step, hv, hk]

/-- Witness for C10 as amended at the initial state. -/
theorem credential_guard_witness :
    step initState Event.galleryClick =
      ({ initState with showApiKeyModal := true }, []) ∧
    step initState (Event.captureClick (some ("img"))) =
      ({ initState with showApiKeyModal := true }, []) :=
  credential_guard initState (some ("img")) (by rfl) (by rfl)

/-- C10 counterexample: after saving a key, capturing, seeing the analysis
fail, clearing the key field in settings without saving and retrying, the
retry issues the inference request with the empty credential: a network
request happens while no credential is stored. -/
theorem c10_retry_counterexample :
    (runEvents initState staleKeyTrace).1.apiKey = "" ∧
    Effect.fetchInference ("") ("meal.jpg") ∈
      (runEvents initState staleKeyTrace).2 := by
  exact ⟨by decide, by decide⟩
